import Mathlib

/-!
Verification of the Expense Record Service (`src/main.py`).

The embedding models the service's single table as a `List Expense`, amounts as
rationals (the source uses floating point; every amount in the properties below
is an exact decimal), and calendar dates as integers ordered as dates are.
Each endpoint handler of the source is translated to a Lean function; handlers
that mutate the store return the response together with the post-state of the
table, read-only handlers return only the response and are wired into the
state-passing `handle` function.
-/

/-- A stored expense row (`class Expense(SQLModel, table=True)`): an assigned
integer `id`, a `category` string, a positive `amount`, and a `date`. -/
structure Expense where
  id : Nat
  category : String
  amount : Rat
  date : Int
deriving DecidableEq, Repr

/-- The creation input (`class ExpenseCreate`): it has no `id` field. -/
structure ExpenseCreateRaw where
  category : String
  amount : Rat
  date : Int
deriving DecidableEq, Repr

/-- The body of a PUT request parsed with `exclude_unset=True`: each field of
`Expense` is either explicitly present in the payload or absent. -/
structure ExpensePayload where
  id : Option Nat
  category : Option String
  amount : Option Rat
  date : Option Int
deriving DecidableEq, Repr

/-- An `HTTPException` raised by a handler: status code and detail string. -/
structure HTTPError where
  status : Nat
  detail : String
deriving DecidableEq, Repr

/-- Python's `str.lower()` / SQL `lower()` as used on ASCII category strings:
lower-case every character. -/
def strLower (s : String) : String := ⟨s.data.map Char.toLower⟩

/-- Pydantic validation of `ExpenseCreate`: `amount = Field(gt=0)` and
`category = Field(max_length=50)`.  The source declares no minimum length for
`category`. -/
def validateExpenseCreate (r : ExpenseCreateRaw) : Bool :=
  decide (0 < r.amount) && decide (r.category.length ≤ 50)

/-- The id SQLite assigns to a newly inserted row: one more than the largest
id in the table. -/
def nextId (tbl : List Expense) : Nat :=
  tbl.foldl (fun m x => max m x.id) 0 + 1

/-- Endpoint `POST /expenses/` (`create_expense`): the body is validated against
`ExpenseCreate` before the handler runs; on success the row is inserted with a
store-assigned id and returned. -/
def create_expense (raw : ExpenseCreateRaw) (tbl : List Expense) :
    Except HTTPError Expense × List Expense :=
  if validateExpenseCreate raw then
    let ne : Expense :=
      { id := nextId tbl, category := raw.category
        amount := raw.amount, date := raw.date }
    (.ok ne, tbl ++ [ne])
  else
    (.error ⟨422, "validation error"⟩, tbl)

/-- Endpoint `GET /expenses/` (`get_all_expenses`): 404 when the table is empty. -/
def get_all_expenses (tbl : List Expense) : Except HTTPError (List Expense) :=
  if tbl = [] then .error ⟨404, "No expenses found"⟩ else .ok tbl

/-- Endpoint `GET /expenses/category/{category}` (`get_category_based_expenses`):
400 on empty category, otherwise select the rows whose lower-cased category
equals the lower-cased input; 404 when none match. -/
def get_category_based_expenses (category : String) (tbl : List Expense) :
    Except HTTPError (List Expense) :=
  if category = "" then .error ⟨400, "Category is required"⟩
  else if tbl.filter (fun e => strLower e.category == strLower category) = [] then
    .error ⟨404, "No expenses found"⟩
  else .ok (tbl.filter (fun e => strLower e.category == strLower category))

/-- Endpoint `GET /expenses/search/` (`search_expenses`): the query parameter `q` is
optional; `if not q` rejects both a missing and an empty query with 400.  The
match itself is the same exact lower-cased comparison as the category
endpoint. -/
def search_expenses (q : Option String) (tbl : List Expense) :
    Except HTTPError (List Expense) :=
  match q with
  | none => .error ⟨400, "Query parameter is required"⟩
  | some s =>
    if s = "" then .error ⟨400, "Query parameter is required"⟩
    else if tbl.filter (fun e => strLower e.category == strLower s) = [] then
      .error ⟨404, "No expenses found"⟩
    else .ok (tbl.filter (fun e => strLower e.category == strLower s))

/-- Endpoint `DELETE /expenses/{index}` (`delete_expense`): `if not index` rejects the
zero id with 400.  Otherwise `.one()` demands exactly one matching row; when it
raises (no row, or more than one) the generic `except Exception` handler turns
the failure into a 500.  The `404` branch after `.one()` is unreachable. -/
def delete_expense (index : Nat) (tbl : List Expense) :
    Except HTTPError String × List Expense :=
  if index = 0 then (.error ⟨400, "Expense index is required"⟩, tbl)
  else
    match tbl.filter (fun x => x.id == index) with
    | [_] => (.ok ("Deleted expense at " ++ toString index),
              tbl.filter (fun x => !(x.id == index)))
    | _ => (.error ⟨500, "No row was found when one was required"⟩, tbl)

/-- Merging an update payload into a stored row: `setattr` for every field
present in `model_dump(exclude_unset=True)`; absent fields keep their stored
value. -/
def applyUpdate (e : Expense) (p : ExpensePayload) : Expense :=
  { id := p.id.getD e.id
    category := p.category.getD e.category
    amount := p.amount.getD e.amount
    date := p.date.getD e.date }

/-- Endpoint `PUT /expenses/{index}` (`update_expense`): `.one()` fetches the row; the
handler has no `try`, so a missing row propagates as an unhandled
`NoResultFound`, surfaced by the framework as a 500 with no commit.  On
success the merged row is committed in place and returned. -/
def update_expense (index : Nat) (p : ExpensePayload) (tbl : List Expense) :
    Except HTTPError Expense × List Expense :=
  match tbl.filter (fun x => x.id == index) with
  | [e] =>
    (.ok (applyUpdate e p),
     tbl.map (fun x => if x.id == index then applyUpdate e p else x))
  | _ => (.error ⟨500, "NoResultFound (unhandled)"⟩, tbl)

/-- Endpoint `GET /expenses/datefilter/` (`search_expenses_bydate`) with both bounds
supplied (the defaulting of `end_date` is modelled separately): keep the rows
with `start_date <= date` (no lower bound when `start_date` is `None`; a
`date` object is always truthy) and `date <= end_date`.  This handler never
raises: an empty match is returned as an empty list. -/
def search_expenses_bydate (start : Option Int) (endDate : Int)
    (tbl : List Expense) : Except HTTPError (List Expense) :=
  .ok (tbl.filter (fun x =>
    (match start with
     | none => true
     | some s => decide (s ≤ x.date)) && decide (x.date ≤ endDate)))

/-- The defaulted date-filter request as the source executes it: the default
expression `end_date: date = date.today()` is evaluated once, when the `def`
statement runs at module import, so every request that omits `end_date` uses
the import-time date, not the date of the request. -/
def datefilter_request (importDate : Int) (start : Option Int)
    (endOpt : Option Int) (tbl : List Expense) :
    Except HTTPError (List Expense) :=
  search_expenses_bydate start (endOpt.getD importDate) tbl

/-- Modelled from the spec: "end_date defaults to 'today' at request time" —
a request that omits `end_date` would use the current date of that request. -/
def datefilter_request_spec (requestDate : Int) (start : Option Int)
    (endOpt : Option Int) (tbl : List Expense) :
    Except HTTPError (List Expense) :=
  search_expenses_bydate start (endOpt.getD requestDate) tbl

/-- The possible success payloads of the endpoints. -/
inductive Value where
  | expense (e : Expense)
  | expenses (l : List Expense)
  | summary (s : List (String × Rat))
  | message (m : String)
deriving DecidableEq, Repr

/-- The service requests. -/
inductive Request where
  | create (raw : ExpenseCreateRaw)
  | listAll
  | byCategory (category : String)
  | summarize (minAmount : Rat)
  | delete (index : Nat)
  | update (index : Nat) (p : ExpensePayload)
  | search (q : Option String)
  | dateFilter (start : Option Int) (endDate : Int)
deriving DecidableEq, Repr

/-- One step of the summary loop `expense_summary[expense.category] += expense.amount`
over a `defaultdict(float)`: an existing key keeps its position and accumulates
the amount; a new key is appended with its first amount. -/
def addToSummary (acc : List (String × Rat)) (e : Expense) : List (String × Rat) :=
  if acc.any (fun p => p.1 == e.category) then
    acc.map (fun p => if p.1 == e.category then (p.1, p.2 + e.amount) else p)
  else acc ++ [(e.category, e.amount)]

/-- The grouping loop of `get_summary`: totals per category, keys in first-seen
order. -/
def groupByCategory (tbl : List Expense) : List (String × Rat) :=
  tbl.foldl addToSummary []

/-- The ordering `sorted(expense_summary.items(), key=lambda x: x[1], reverse=True)`
sorts by: the earlier element has the larger-or-equal total.  Python's sort is
stable, so this relation together with stability determines the output. -/
def byAmountDesc (a b : String × Rat) : Prop := b.2 ≤ a.2

instance : DecidableRel byAmountDesc := fun a b => inferInstanceAs (Decidable (b.2 ≤ a.2))

instance : IsTotal (String × Rat) byAmountDesc :=
  ⟨fun a b => (le_total b.2 a.2).imp (fun h => h) (fun h => h)⟩

instance : IsTrans (String × Rat) byAmountDesc :=
  ⟨fun _ _ _ h1 h2 => le_trans h2 h1⟩

/-- Endpoint `GET /expenses/summary/{min_amount}` (`get_summary`): 404 when the table
is empty (checked before any grouping or filtering); otherwise group, sort by
descending total with Python's stable sort, and keep the totals strictly
greater than `min_amount`. -/
def get_summary (minAmount : Rat) (tbl : List Expense) :
    Except HTTPError (List (String × Rat)) :=
  if tbl = [] then .error ⟨404, "No expenses found"⟩
  else .ok (((groupByCategory tbl).insertionSort byAmountDesc).filter
    (fun p => decide (minAmount < p.2)))

/-- The service as a state-passing step function: each request maps the stored
table to a response and the table after the request.  The read-only handlers
execute only `select` statements, so they pass the table through unchanged. -/
def handle : Request → List Expense → Except HTTPError Value × List Expense
  | .create raw, tbl =>
    ((create_expense raw tbl).1.map Value.expense, (create_expense raw tbl).2)
  | .listAll, tbl => ((get_all_expenses tbl).map Value.expenses, tbl)
  | .byCategory c, tbl => ((get_category_based_expenses c tbl).map Value.expenses, tbl)
  | .summarize m, tbl => ((get_summary m tbl).map Value.summary, tbl)
  | .delete i, tbl =>
    ((delete_expense i tbl).1.map Value.message, (delete_expense i tbl).2)
  | .update i p, tbl =>
    ((update_expense i p tbl).1.map Value.expense, (update_expense i p tbl).2)
  | .search q, tbl => ((search_expenses q tbl).map Value.expenses, tbl)
  | .dateFilter s e, tbl => ((search_expenses_bydate s e tbl).map Value.expenses, tbl)

/-- Spec-side characterization: the total amount of the rows of a category. -/
def categoryTotal (c : String) (tbl : List Expense) : Rat :=
  ((tbl.filter (fun e => e.category == c)).map (fun e => e.amount)).sum

/-- Spec-side characterization: the distinct categories of the table in
first-seen order. -/
def firstSeenCategories (tbl : List Expense) : List String :=
  tbl.foldl (fun ks e => if ks.any (fun k => k == e.category) then ks
                         else ks ++ [e.category]) []

/-- The value the summary association list holds for category `c`. -/
def lookupCat (acc : List (String × Rat)) (c : String) : Option Rat :=
  (acc.find? (fun p => p.1 == c)).map (fun p => p.2)

/-- C10: every read-only operation — list-all, list-by-category, summarize,
search, and date-filter — leaves the stored table unchanged, whatever the
input and whether the response is a success or an error. -/
theorem read_requests_leave_table_unchanged (tbl : List Expense) (c : String)
    (m : Rat) (q : Option String) (s : Option Int) (e : Int) :
    (handle .listAll tbl).2 = tbl ∧
    (handle (.byCategory c) tbl).2 = tbl ∧
    (handle (.summarize m) tbl).2 = tbl ∧
    (handle (.search q) tbl).2 = tbl ∧
    (handle (.dateFilter s e) tbl).2 = tbl :=
  ⟨rfl, rfl, rfl, rfl, rfl⟩

/-- C3: the zero id is rejected with status 400 "Expense index is required"
and the table is untouched, as the claim states; but a nonzero id with no
matching record is answered with status 500, not 404: `.one()` raises
`NoResultFound`, which the generic `except Exception` handler converts to a
500, and the 404 branch after it is unreachable. -/
theorem delete_zero_400_missing_500 :
    delete_expense 0 [⟨1, "Food", 10, 0⟩] =
      (.error ⟨400, "Expense index is required"⟩, [⟨1, "Food", 10, 0⟩]) ∧
    delete_expense 5 [⟨1, "Food", 10, 0⟩] =
      (.error ⟨500, "No row was found when one was required"⟩,
       [⟨1, "Food", 10, 0⟩]) :=
  ⟨rfl, rfl⟩

/-- C7: the `end_date` default is the module-import date, not the request
date.  With import date 0 and a record dated 1, a request on day 1 omitting
`end_date` misses the record, while the behaviour the spec describes
(request-time default) would return it. -/
theorem datefilter_default_fixed_at_import :
    datefilter_request 0 none none [⟨1, "Food", 10, 1⟩] = .ok [] ∧
    datefilter_request_spec 1 none none [⟨1, "Food", 10, 1⟩] =
      .ok [⟨1, "Food", 10, 1⟩] :=
  ⟨rfl, rfl⟩

/-- C6: date-filter returns exactly the records with
`start_date <= date <= end_date`, both bounds inclusive; an omitted
`start_date` imposes no lower bound; and an empty matching set is returned as
an empty sequence, never as an error. -/
theorem datefilter_inclusive_bounds :
    (∀ (s : Option Int) (e : Int) (tbl : List Expense), ∃ l,
      search_expenses_bydate s e tbl = .ok l ∧
      (∀ x, x ∈ l ↔ x ∈ tbl ∧ (∀ s0, s = some s0 → s0 ≤ x.date) ∧ x.date ≤ e) ∧
      (s = none → l = tbl.filter (fun x => decide (x.date ≤ e)))) ∧
    search_expenses_bydate (some 10) 20 [⟨1, "Food", 10, 0⟩] = .ok [] := by
  constructor
  · intro s e tbl
    refine ⟨_, rfl, ?_, ?_⟩
    · intro x
      cases s with
      | none => simp [List.mem_filter]
      | some s0 => simp [List.mem_filter]
    · rintro rfl
      simp
  · rfl

/-- C6 witness: the characterization applied to a concrete store. -/
theorem datefilter_inclusive_bounds_witness :
    ∃ l, search_expenses_bydate (some 0) 20 [⟨1, "Food", 10, 15⟩] = .ok l ∧
      (∀ x, x ∈ l ↔ x ∈ [⟨1, "Food", 10, 15⟩] ∧
        (∀ s0, (some (0 : Int)) = some s0 → s0 ≤ x.date) ∧ x.date ≤ 20) ∧
      ((some (0 : Int)) = none →
        l = [⟨1, "Food", 10, 15⟩].filter (fun x => decide (x.date ≤ 20))) :=
  datefilter_inclusive_bounds.1 (some 0) 20 [⟨1, "Food", 10, 15⟩]

/-- C9: summarize answers 404 exactly when the table holds no records at all,
the emptiness test happening before the threshold filter; a nonempty table
whose totals are all filtered out yields an empty mapping as a success. -/
theorem summary_404_iff_no_records :
    (∀ (m : Rat) (tbl : List Expense),
      (get_summary m tbl = .error ⟨404, "No expenses found"⟩ ↔ tbl = []) ∧
      (tbl ≠ [] → ∃ l, get_summary m tbl = .ok l)) ∧
    get_summary 100 [⟨1, "Food", 10, 0⟩] = .ok [] := by
  constructor
  · intro m tbl
    constructor
    · by_cases h : tbl = [] <;> simp [get_summary, h]
    · intro h
      refine ⟨((groupByCategory tbl).insertionSort byAmountDesc).filter
        (fun p => decide (m < p.2)), ?_⟩
      simp [get_summary, h]
  · rfl

/-- C9 witness: the iff applied on the empty store, and the success half on a
nonempty one. -/
theorem summary_404_iff_no_records_witness :
    get_summary 0 ([] : List Expense) = .error ⟨404, "No expenses found"⟩ ∧
    ∃ l, get_summary 0 [⟨1, "Food", 10, 0⟩] = .ok l :=
  ⟨(summary_404_iff_no_records.1 0 []).1.mpr rfl,
   (summary_404_iff_no_records.1 0 [⟨1, "Food", 10, 0⟩]).2 (by decide)⟩

/-- C1 counterexample: an empty `category` passes validation — `ExpenseCreate`
declares `max_length=50` but no minimum length — and the record is inserted,
contradicting the claim that an empty category fails before any storage
interaction. -/
theorem create_accepts_empty_category :
    validateExpenseCreate ⟨"", 1, 0⟩ = true ∧
    (create_expense ⟨"", 1, 0⟩ []).2 = [⟨1, "", 1, 0⟩] :=
  ⟨rfl, rfl⟩

/-- C1 (amended): validation fails exactly for `amount <= 0` or a category of
more than 50 characters (an empty category is accepted), a failed validation
leaves the store untouched, and the boundaries behave as claimed:
`amount = 0.01` and a 50-character category are accepted, `amount = 0` and a
51-character category are rejected. -/
theorem create_validation_boundaries :
    (∀ (r : ExpenseCreateRaw) (tbl : List Expense),
      (validateExpenseCreate r = false ↔
        (r.amount ≤ 0 ∨ 50 < r.category.length)) ∧
      (validateExpenseCreate r = false → (create_expense r tbl).2 = tbl)) ∧
    validateExpenseCreate ⟨"Lunch", mkRat 1 100, 0⟩ = true ∧
    validateExpenseCreate ⟨"Lunch", 0, 0⟩ = false ∧
    validateExpenseCreate ⟨"Lunch", -1, 0⟩ = false ∧
    validateExpenseCreate
      ⟨"aaaaaaaaaaaaaaaaaaaaaaaaaaaaaaaaaaaaaaaaaaaaaaaaaa", 1, 0⟩ = true ∧
    validateExpenseCreate
      ⟨"aaaaaaaaaaaaaaaaaaaaaaaaaaaaaaaaaaaaaaaaaaaaaaaaaaa", 1, 0⟩ = false := by
  refine ⟨?_, by decide, by decide, by decide, by decide, by decide⟩
  intro r tbl
  constructor
  · constructor
    · intro hf
      by_contra hcon
      push_neg at hcon
      simp [validateExpenseCreate, hcon.1, hcon.2] at hf
    · intro hor
      rcases hor with h | h
      · simp [validateExpenseCreate, not_lt.mpr h]
      · simp [validateExpenseCreate, not_le.mpr h]
  · intro hf
    simp [create_expense, hf]

/-- C1 witness: the amended theorem applied to a rejected input and a concrete
store. -/
theorem create_validation_boundaries_witness :
    (create_expense ⟨"Lunch", 0, 0⟩ [⟨1, "a", 1, 0⟩]).2 = [⟨1, "a", 1, 0⟩] :=
  ((create_validation_boundaries.1 ⟨"Lunch", 0, 0⟩ [⟨1, "a", 1, 0⟩]).2)
    (by decide)

/-- C4 counterexample: an update payload that explicitly carries `id` changes
the id of the stored record — `model_dump(exclude_unset=True)` keeps the `id`
key and `setattr` overwrites it — so ids are not immutable under every
payload. -/
theorem update_payload_can_change_id :
    (update_expense 1 ⟨some 2, none, none, none⟩ [⟨1, "Food", 10, 0⟩]).2 =
      [⟨2, "Food", 10, 0⟩] ∧
    (update_expense 1 ⟨some 2, none, none, none⟩ [⟨1, "Food", 10, 0⟩]).1 =
      .ok ⟨2, "Food", 10, 0⟩ :=
  ⟨rfl, rfl⟩

/-- C4 (amended): creation input carries no id — the assigned id is a function
of the store alone, `nextId` — and update preserves every stored id whenever
the payload does not explicitly supply an `id` field. -/
theorem id_immutable_without_id_in_payload (i : Nat) (p : ExpensePayload)
    (raw : ExpenseCreateRaw) (tbl : List Expense) :
    (p.id = none →
      (update_expense i p tbl).2.map Expense.id = tbl.map Expense.id) ∧
    (validateExpenseCreate raw = true →
      (create_expense raw tbl).2.map Expense.id =
        tbl.map Expense.id ++ [nextId tbl]) := by
  constructor
  · intro hp
    unfold update_expense
    split
    · rename_i e heq
      have he : e ∈ tbl.filter (fun x => x.id == i) := by
        rw [heq]; exact List.mem_singleton_self e
      have heid : e.id = i := by
        have h2 := (List.mem_filter.mp he).2
        simpa using h2
      simp only [List.map_map]
      apply List.map_congr_left
      intro x hx
      by_cases hxi : x.id = i
      · simp [Function.comp, hxi, applyUpdate, hp, heid]
      · simp [Function.comp, hxi]
    · rfl
  · intro hv
    simp [create_expense, hv]

/-- C4 witness: the amended theorem applied to a concrete store, a payload
without `id`, and a valid creation input. -/
theorem id_immutable_without_id_in_payload_witness :
    (update_expense 1 ⟨none, none, some 99, none⟩ [⟨1, "Food", 10, 0⟩]).2.map
      Expense.id = [⟨1, "Food", 10, 0⟩].map Expense.id ∧
    (create_expense ⟨"Food", 5, 0⟩ [⟨1, "Food", 10, 0⟩]).2.map Expense.id =
      [⟨1, "Food", 10, 0⟩].map Expense.id ++ [nextId [⟨1, "Food", 10, 0⟩]] :=
  ⟨(id_immutable_without_id_in_payload 1 ⟨none, none, some 99, none⟩
      ⟨"Food", 5, 0⟩ [⟨1, "Food", 10, 0⟩]).1 rfl,
   (id_immutable_without_id_in_payload 1 ⟨none, none, some 99, none⟩
      ⟨"Food", 5, 0⟩ [⟨1, "Food", 10, 0⟩]).2 (by decide)⟩

/-- C8: updating the unique record with a given id replaces exactly the fields
present in the payload — each field of the result is the payload's value when
present and the prior stored value when absent — and rewrites only that row of
the table. -/
theorem update_changes_only_present_fields (i : Nat) (p : ExpensePayload)
    (tbl : List Expense) (e : Expense)
    (h : tbl.filter (fun x => x.id == i) = [e]) :
    update_expense i p tbl =
      (.ok (applyUpdate e p),
       tbl.map (fun x => if x.id == i then applyUpdate e p else x)) ∧
    (applyUpdate e p).id = p.id.getD e.id ∧
    (applyUpdate e p).category = p.category.getD e.category ∧
    (applyUpdate e p).amount = p.amount.getD e.amount ∧
    (applyUpdate e p).date = p.date.getD e.date := by
  refine ⟨?_, rfl, rfl, rfl, rfl⟩
  unfold update_expense
  rw [h]

/-- C8 witness: updating record 1 with only `amount = 99` leaves `category`
and `date` unchanged. -/
theorem update_changes_only_present_fields_witness :
    (update_expense 1 ⟨none, none, some 99, none⟩ [⟨1, "Food", 10, 5⟩]).1 =
      .ok ⟨1, "Food", 99, 5⟩ := by
  have h := update_changes_only_present_fields 1 ⟨none, none, some 99, none⟩
    [⟨1, "Food", 10, 5⟩] ⟨1, "Food", 10, 5⟩ (by decide)
  rw [h.1]
  rfl

/-- C5: for every nonempty query, search returns exactly what list-by-category
returns — the same exact case-insensitive match of the stored category against
the whole input, not a substring match — and in particular the categories
"Food" and "food" select the same records on every store. -/
theorem search_equals_category_filter (q : String) (tbl : List Expense)
    (hq : q ≠ "") :
    search_expenses (some q) tbl = get_category_based_expenses q tbl ∧
    (∀ l, get_category_based_expenses q tbl = .ok l →
      ∀ e, e ∈ l ↔ (e ∈ tbl ∧ strLower e.category = strLower q)) ∧
    get_category_based_expenses "Food" tbl =
      get_category_based_expenses "food" tbl := by
  refine ⟨?_, ?_, ?_⟩
  · simp [search_expenses, get_category_based_expenses, hq]
  · intro l hl e
    unfold get_category_based_expenses at hl
    rw [if_neg hq] at hl
    by_cases hempty :
        tbl.filter (fun e => strLower e.category == strLower q) = []
    · rw [if_pos hempty] at hl
      cases hl
    · rw [if_neg hempty] at hl
      cases hl
      simp [List.mem_filter]
  · unfold get_category_based_expenses
    rw [if_neg (by decide : ¬("Food" = "")), if_neg (by decide : ¬("food" = ""))]
    simp only [show strLower "Food" = "food" from rfl,
      show strLower "food" = "food" from rfl]

/-- C5 witness: the equivalence applied to the query "Food" on a concrete
store. -/
theorem search_equals_category_filter_witness :
    search_expenses (some "Food") [⟨1, "Food", 10, 0⟩] =
      get_category_based_expenses "Food" [⟨1, "Food", 10, 0⟩] :=
  (search_equals_category_filter "Food" [⟨1, "Food", 10, 0⟩] (by decide)).1


theorem lookupCat_update (acc : List (String × Rat)) (cat : String) (a : Rat)
    (c : String) :
    lookupCat (acc.map (fun p => if p.1 == cat then (p.1, p.2 + a) else p)) c =
      Option.map (fun t => if cat == c then t + a else t) (lookupCat acc c) := by
  induction acc with
  | nil => simp [lookupCat]
  | cons p rest ih =>
    have hfp1 : ((if p.1 == cat then (p.1, p.2 + a) else p) : String × Rat).1
        = p.1 := by
      by_cases hc : p.1 == cat <;> simp [hc]
    by_cases hp : (p.1 == c) = true
    · have hpc : p.1 = c := by simpa using hp
      simp only [lookupCat, List.map_cons, List.find?_cons, hfp1, hp]
      by_cases hcc : (cat == c) = true
      · have : (p.1 == cat) = true := by
          rw [hpc]
          have : cat = c := by simpa using hcc
          simp [this]
        simp [this, hcc]
      · have : (p.1 == cat) = false := by
          rw [hpc]
          by_contra hx
          rw [Bool.not_eq_false] at hx
          have h1 : c = cat := by simpa using hx
          have : (cat == c) = true := by simp [h1]
          exact absurd this (by simpa using hcc)
        simp [this, hcc]
    · have hp' : (p.1 == c) = false := by
        rw [← Bool.not_eq_true]; exact hp
      simp only [lookupCat, List.map_cons, List.find?_cons, hfp1, hp'] at ih ⊢
      simpa [lookupCat] using ih

theorem lookupCat_addToSummary (acc : List (String × Rat)) (e : Expense)
    (c : String) :
    lookupCat (addToSummary acc e) c =
      if e.category == c then some ((lookupCat acc c).getD 0 + e.amount)
      else lookupCat acc c := by
  by_cases hk : (acc.any (fun p => p.1 == e.category)) = true
  · have hmap : addToSummary acc e = acc.map (fun p =>
        if p.1 == e.category then (p.1, p.2 + e.amount) else p) := by
      simp [addToSummary, hk]
    rw [hmap, lookupCat_update]
    by_cases hec : (e.category == c) = true
    · rw [if_pos hec]
      have hc : e.category = c := by simpa using hec
      obtain ⟨q, hq⟩ : ∃ q, acc.find? (fun p => p.1 == c) = some q := by
        rw [← Option.isSome_iff_exists, List.find?_isSome]
        rw [List.any_eq_true] at hk
        obtain ⟨x, hx, hxe⟩ := hk
        exact ⟨x, hx, by rw [← hc]; exact hxe⟩
      simp [lookupCat, hq, hec]
    · have hec' : (e.category == c) = false := by
        rw [← Bool.not_eq_true]; exact hec
      rw [if_neg (by simp [hec'])]
      simp only [hec']
      cases hx : lookupCat acc c <;> simp
  · have hk' : (acc.any (fun p => p.1 == e.category)) = false := by
      rw [← Bool.not_eq_true]; exact hk
    have happ : addToSummary acc e = acc ++ [(e.category, e.amount)] := by
      simp [addToSummary, hk']
    have hnone : acc.find? (fun p => p.1 == e.category) = none := by
      rw [List.find?_eq_none]
      rw [List.any_eq_false] at hk'
      exact hk'
    rw [happ]
    unfold lookupCat
    rw [List.find?_append]
    by_cases hec : (e.category == c) = true
    · have hc : e.category = c := by simpa using hec
      have hnone' : acc.find? (fun p => p.1 == c) = none := by
        rw [← hc]; exact hnone
      simp [hnone', List.find?_cons, hec, lookupCat]
    · have hec' : (e.category == c) = false := by
        rw [← Bool.not_eq_true]; exact hec
      rw [if_neg (by simp [hec'])]
      simp [List.find?_cons, hec', lookupCat]

theorem categoryTotal_cons (c : String) (e : Expense) (rest : List Expense) :
    categoryTotal c (e :: rest) =
      (if e.category == c then e.amount else 0) + categoryTotal c rest := by
  by_cases hec : (e.category == c) = true <;>
    simp [categoryTotal, List.filter_cons, hec]

theorem categoryTotal_eq_zero (c : String) (tbl : List Expense)
    (h : tbl.any (fun e => e.category == c) = false) :
    categoryTotal c tbl = 0 := by
  rw [List.any_eq_false] at h
  have : tbl.filter (fun e => e.category == c) = [] := by
    rw [List.filter_eq_nil_iff]
    exact h
  simp [categoryTotal, this]

theorem lookupCat_foldl (tbl : List Expense) :
    ∀ (acc : List (String × Rat)) (c : String),
    lookupCat (tbl.foldl addToSummary acc) c =
      if tbl.any (fun e => e.category == c) then
        some ((lookupCat acc c).getD 0 + categoryTotal c tbl)
      else lookupCat acc c := by
  induction tbl with
  | nil =>
    intro acc c
    simp [categoryTotal]
  | cons e rest ih =>
    intro acc c
    rw [List.foldl_cons, ih, lookupCat_addToSummary]
    by_cases hec : (e.category == c) = true
    · rw [if_pos hec]
      by_cases hrest : (rest.any (fun x => x.category == c)) = true
      · rw [if_pos hrest, if_pos (by simp [List.any_cons, hec])]
        rw [categoryTotal_cons, if_pos hec]
        simp [add_assoc]
      · have hrest' : (rest.any (fun x => x.category == c)) = false := by
          rw [← Bool.not_eq_true]; exact hrest
        rw [if_neg (by simp [hrest']), if_pos (by simp [List.any_cons, hec])]
        rw [categoryTotal_cons, if_pos hec, categoryTotal_eq_zero c rest hrest']
        simp
    · have hec' : (e.category == c) = false := by
        rw [← Bool.not_eq_true]; exact hec
      simp only [hec', Bool.false_eq_true, if_false, List.any_cons, Bool.false_or,
        categoryTotal_cons, zero_add]

theorem keys_addToSummary (acc : List (String × Rat)) (e : Expense) :
    (addToSummary acc e).map (fun p => p.1) =
      if (acc.map (fun p => p.1)).any (fun k => k == e.category) then
        acc.map (fun p => p.1)
      else acc.map (fun p => p.1) ++ [e.category] := by
  have hany : (acc.map (fun p => p.1)).any (fun k => k == e.category) =
      acc.any (fun p => p.1 == e.category) := by
    induction acc with
    | nil => rfl
    | cons p rest ihacc => simp [ihacc]
  rw [hany]
  by_cases hk : (acc.any (fun p => p.1 == e.category)) = true
  · rw [if_pos hk]
    simp only [addToSummary, hk, if_true, List.map_map]
    apply List.map_congr_left
    intro p hp
    by_cases hpe : (p.1 == e.category) = true <;> simp [Function.comp, hpe]
  · have hk' : (acc.any (fun p => p.1 == e.category)) = false := by
      rw [← Bool.not_eq_true]; exact hk
    rw [hk']
    simp [addToSummary, hk']

theorem keys_foldl (tbl : List Expense) :
    ∀ acc : List (String × Rat),
    (tbl.foldl addToSummary acc).map (fun p => p.1) =
      tbl.foldl (fun ks e => if ks.any (fun k => k == e.category) then ks
                             else ks ++ [e.category]) (acc.map (fun p => p.1)) := by
  induction tbl with
  | nil => intro acc; rfl
  | cons e rest ih =>
    intro acc
    rw [List.foldl_cons, List.foldl_cons, ih, keys_addToSummary]

theorem groupByCategory_keys (tbl : List Expense) :
    (groupByCategory tbl).map (fun p => p.1) = firstSeenCategories tbl := by
  rw [groupByCategory, keys_foldl]
  rfl

theorem seen_foldl_nodup (tbl : List Expense) :
    ∀ ks : List String, ks.Nodup →
    (tbl.foldl (fun ks e => if ks.any (fun k => k == e.category) then ks
                            else ks ++ [e.category]) ks).Nodup := by
  induction tbl with
  | nil => intro ks h; exact h
  | cons e rest ih =>
    intro ks h
    rw [List.foldl_cons]
    apply ih
    by_cases hk : (ks.any (fun k => k == e.category)) = true
    · rw [if_pos hk]; exact h
    · have hk' : (ks.any (fun k => k == e.category)) = false := by
        rw [← Bool.not_eq_true]; exact hk
      rw [hk']
      simp only [if_false, Bool.false_eq_true]
      rw [List.nodup_append]
      refine ⟨h, List.nodup_singleton _, ?_⟩
      intro a ha hb
      rw [List.any_eq_false] at hk'
      have : a = e.category := by simpa using hb
      exact (by simpa [this] using hk' a ha)

theorem groupByCategory_keys_nodup (tbl : List Expense) :
    ((groupByCategory tbl).map (fun p => p.1)).Nodup := by
  rw [groupByCategory, keys_foldl]
  exact seen_foldl_nodup tbl [] List.nodup_nil

theorem lookupCat_eq_of_mem :
    ∀ (l : List (String × Rat)), ((l.map (fun p => p.1)).Nodup) →
    ∀ (c : String) (t : Rat), (c, t) ∈ l → lookupCat l c = some t := by
  intro l
  induction l with
  | nil => intro _ c t h; cases h
  | cons p rest ih =>
    intro hnd c t hmem
    rw [List.map_cons, List.nodup_cons] at hnd
    rcases List.mem_cons.mp hmem with heq | hrest
    · subst heq
      simp [lookupCat, List.find?_cons]
    · have hpc : (p.1 == c) = false := by
        by_contra hx
        rw [Bool.not_eq_false] at hx
        have hpc' : p.1 = c := by simpa using hx
        exact hnd.1 (by
          rw [hpc']
          exact List.mem_map.mpr ⟨(c, t), hrest, rfl⟩)
      have := ih hnd.2 c t hrest
      simpa [lookupCat, List.find?_cons, hpc] using this

theorem mem_iff_lookupCat (l : List (String × Rat))
    (hnd : (l.map (fun p => p.1)).Nodup) (c : String) (t : Rat) :
    (c, t) ∈ l ↔ lookupCat l c = some t := by
  constructor
  · exact lookupCat_eq_of_mem l hnd c t
  · intro h
    unfold lookupCat at h
    cases hq : l.find? (fun p => p.1 == c) with
    | none => rw [hq] at h; cases h
    | some q =>
      rw [hq] at h
      have hq1 : q.1 = c := by simpa using List.find?_some hq
      have hq2 : q.2 = t := by simpa using h
      have : q = (c, t) := by
        cases q
        simp only at hq1 hq2
        rw [hq1, hq2]
      rw [← this]
      exact List.mem_of_find?_eq_some hq

theorem mem_groupByCategory (tbl : List Expense) (c : String) (t : Rat) :
    (c, t) ∈ groupByCategory tbl ↔
      (tbl.any (fun e => e.category == c) = true ∧ t = categoryTotal c tbl) := by
  rw [mem_iff_lookupCat _ (groupByCategory_keys_nodup tbl)]
  have h := lookupCat_foldl tbl [] c
  rw [groupByCategory]
  rw [h]
  by_cases hany : (tbl.any (fun e => e.category == c)) = true
  · rw [if_pos hany]
    simp [lookupCat, hany, eq_comm]
  · have hany' : (tbl.any (fun e => e.category == c)) = false := by
      rw [← Bool.not_eq_true]; exact hany
    rw [hany']
    simp [lookupCat]

theorem filter_amount_insertionSort (l : List (String × Rat)) (t : Rat) :
    (l.insertionSort byAmountDesc).filter (fun p => p.2 == t) =
      l.filter (fun p => p.2 == t) := by
  have hconst : ∀ p ∈ l.filter (fun p => p.2 == t), p.2 = t := by
    intro p hp
    have h2 := (List.mem_filter.mp hp).2
    simpa using h2
  have hpair : (l.filter (fun p => p.2 == t)).Pairwise byAmountDesc :=
    List.pairwise_of_forall_mem_list (fun a ha b hb => by
      show b.2 ≤ a.2
      rw [hconst b hb, hconst a ha])
  have hsub : (l.filter (fun p => p.2 == t)).Sublist
      (l.insertionSort byAmountDesc) :=
    List.sublist_insertionSort hpair (List.filter_sublist l)
  have hidem : (l.filter (fun p => p.2 == t)).filter (fun p => p.2 == t) =
      l.filter (fun p => p.2 == t) :=
    List.filter_eq_self.mpr (fun a ha => (List.mem_filter.mp ha).2)
  have hsub2 : (l.filter (fun p => p.2 == t)).Sublist
      ((l.insertionSort byAmountDesc).filter (fun p => p.2 == t)) := by
    have h2 := List.Sublist.filter (fun p => p.2 == t) hsub
    rwa [hidem] at h2
  have hlen : ((l.insertionSort byAmountDesc).filter (fun p => p.2 == t)).length =
      (l.filter (fun p => p.2 == t)).length :=
    ((List.perm_insertionSort byAmountDesc l).filter _).length_eq
  exact (hsub2.eq_of_length hlen.symm).symm

/-- C2: summarize groups records by category, sums amounts per category,
keeps exactly the totals strictly above the threshold, orders the result by
descending total with ties left in first-seen category order (Python's stable
sort on the insertion-ordered dict), and in particular behaves as claimed on
the three-record example. -/
theorem summarize_groups_sorts_filters (m : Rat) (tbl : List Expense)
    (h : tbl ≠ []) :
    ∃ l, get_summary m tbl = .ok l ∧
      (∀ c t, (c, t) ∈ l ↔
        (tbl.any (fun e => e.category == c) = true ∧
         t = categoryTotal c tbl ∧ m < t)) ∧
      l.Sorted byAmountDesc ∧
      (∀ t : Rat, m < t →
        l.filter (fun p => p.2 == t) =
          (groupByCategory tbl).filter (fun p => p.2 == t)) ∧
      (groupByCategory tbl).map (fun p => p.1) = firstSeenCategories tbl ∧
      get_summary 0 [⟨1, "Food", 10, 1⟩, ⟨2, "Food", 5, 2⟩, ⟨3, "Travel", 20, 3⟩]
        = .ok [("Travel", 20), ("Food", 15)] ∧
      get_summary 15 [⟨1, "Food", 10, 1⟩, ⟨2, "Food", 5, 2⟩, ⟨3, "Travel", 20, 3⟩]
        = .ok [("Travel", 20)] := by
  refine ⟨((groupByCategory tbl).insertionSort byAmountDesc).filter
      (fun p => decide (m < p.2)), ?_, ?_, ?_, ?_, groupByCategory_keys tbl,
      ?_, ?_⟩
  · simp [get_summary, h]
  · intro c t
    rw [List.mem_filter,
      (List.perm_insertionSort byAmountDesc (groupByCategory tbl)).mem_iff,
      mem_groupByCategory]
    constructor
    · rintro ⟨⟨hany, ht⟩, hd⟩
      exact ⟨hany, ht, by simpa using hd⟩
    · rintro ⟨hany, ht, hm⟩
      exact ⟨⟨hany, ht⟩, by simpa using hm⟩
  · exact (List.sorted_insertionSort byAmountDesc (groupByCategory tbl)).filter _
  · intro t hmt
    rw [List.filter_filter]
    have hcong : ∀ x ∈ (groupByCategory tbl).insertionSort byAmountDesc,
        ((x.2 == t) && decide (m < x.2)) = (x.2 == t) := by
      intro x hx
      by_cases hxt : (x.2 == t) = true
      · have hx2 : x.2 = t := by simpa using hxt
        rw [hxt]
        simp [hx2, hmt]
      · have hxt' : (x.2 == t) = false := by rw [← Bool.not_eq_true]; exact hxt
        rw [hxt']
        simp
    rw [List.filter_congr hcong]
    exact filter_amount_insertionSort (groupByCategory tbl) t
  · norm_num [get_summary, groupByCategory, addToSummary, List.insertionSort,
      List.orderedInsert, byAmountDesc]
    intro hx
    simp at hx
  · norm_num [get_summary, groupByCategory, addToSummary, List.insertionSort,
      List.orderedInsert, byAmountDesc]
    intro hx
    simp at hx

/-- C2 witness: the characterization applied to the three-record example at
threshold 0, projecting the concrete outputs. -/
theorem summarize_groups_sorts_filters_witness :
    get_summary 0 [⟨1, "Food", 10, 1⟩, ⟨2, "Food", 5, 2⟩, ⟨3, "Travel", 20, 3⟩]
      = .ok [("Travel", 20), ("Food", 15)] ∧
    get_summary 15 [⟨1, "Food", 10, 1⟩, ⟨2, "Food", 5, 2⟩, ⟨3, "Travel", 20, 3⟩]
      = .ok [("Travel", 20)] := by
  obtain ⟨l, -, -, -, -, -, h1, h2⟩ :=
    summarize_groups_sorts_filters 0
      [⟨1, "Food", 10, 1⟩, ⟨2, "Food", 5, 2⟩, ⟨3, "Travel", 20, 3⟩]
      (by decide)
  exact ⟨h1, h2⟩
